import Mathlib

/-!
# UserBase-Mongo: the user-records REST API of `server.js`

A shallow embedding of the five route handlers of `server.js`
(`GET /api/users`, `GET /api/users/:id`, `POST /api/users`,
`PUT /api/users/:id`, `DELETE /api/users/:id`) over a list model of the
MongoDB collection they talk to, followed by theorems about them.

Conventions of the embedding

* a request value is a JSON scalar (`Value`); a number is a Number with an
  integer value (not a fraction), rounded to a double wherever the program
  computes one;
* the collection is the list of its documents in natural (insertion) order;
  `_id` is the 96-bit number of the ObjectId;
* `new Date()` and the ObjectId the driver generates for an insert are
  arguments of the handler (`now`, `oid`);
* a handler returns the HTTP response and, when it writes, the collection
  after the request; a `catch` branch is the response with status 500.
-/

namespace UserBase

/-! ## Values -/

/-- A scalar as it occurs in a JSON request body or in a stored document.
`undefined` is an absent property; `num n` is the Number of integer value `n`;
`nan` is what `parseInt` yields on a non-numeric input and `infinity` what it
yields on a numeral beyond the range of a double (neither occurs in JSON). -/
inductive Value where
  | undefined
  | null
  | bool (b : Bool)
  | num (n : Int)
  | nan
  | infinity (negative : Bool)
  | str (s : String)
  deriving DecidableEq, Repr

/-- JavaScript truthiness (`if (v)`, `!v`, `v || d`). -/
def Value.truthy : Value → Bool
  | .undefined => false
  | .null => false
  | .bool b => b
  | .num n => decide (n ≠ 0)
  | .nan => false
  | .infinity _ => true
  | .str s => decide (s ≠ "")

/-- The operator `a || b`. -/
def Value.or (a b : Value) : Value := if a.truthy then a else b

/-- White space and line terminators that `parseInt` skips at the front. -/
def isStrWhiteSpaceChar (c : Char) : Bool :=
  let n := c.toNat
  decide (n = 9 ∨ n = 10 ∨ n = 11 ∨ n = 12 ∨ n = 13 ∨ n = 32 ∨ n = 160 ∨ n = 5760 ∨
    (8192 ≤ n ∧ n ≤ 8202) ∨ n = 8232 ∨ n = 8233 ∨ n = 8239 ∨ n = 8287 ∨ n = 12288 ∨
    n = 65279)

/-- Value of a character as a digit in a radix up to 36. -/
def digitValue (c : Char) : Option Nat :=
  let n := c.toNat
  if 48 ≤ n ∧ n ≤ 57 then some (n - 48)
  else if 97 ≤ n ∧ n ≤ 122 then some (n - 87)
  else if 65 ≤ n ∧ n ≤ 90 then some (n - 55)
  else none

/-- The longest run of leading digits of the radix. -/
def takeDigits (radix : Nat) : List Char → List Nat
  | [] => []
  | c :: cs =>
    match digitValue c with
    | some d => if d < radix then d :: takeDigits radix cs else []
    | none => []

/-- The sign step of `parseInt`: a leading `-` or `+` is removed. -/
def splitSign : List Char → Bool × List Char
  | c :: r => if c.toNat = 45 then (true, r) else if c.toNat = 43 then (false, r) else (false, c :: r)
  | [] => (false, [])

/-- The radix step of `parseInt(s)` without a radix argument: `0x` or `0X`
selects 16, anything else 10. -/
def splitRadix : List Char → Nat × List Char
  | c :: d :: r =>
    if c.toNat = 48 ∧ (d.toNat = 120 ∨ d.toNat = 88) then (16, r) else (10, c :: d :: r)
  | s => (10, s)

/-- Number of digits of `v` in the base, for a `v` of at most `fuel` digits. -/
def digitCount (base : Nat) : Nat → Nat → Nat
  | 0, _ => 0
  | fuel + 1, v => if v = 0 then 0 else digitCount base fuel (v / base) + 1

/-- The double nearest to a natural number, ties to the even significand (53
bits); `none` when the result is beyond the largest double, which is
Infinity. The bound `16 ^ 256` is 2 to the 1024. -/
def roundDouble (v : Nat) : Option Nat :=
  if v < 2 ^ 53 then some v
  else if 16 ^ 256 ≤ v then none
  else
    let e := digitCount 2 1024 v - 53
    let q := v / 2 ^ e
    let r := v % 2 ^ e
    let half := 2 ^ (e - 1)
    let q1 := if half < r ∨ (r = half ∧ q % 2 = 1) then q + 1 else q
    let d := q1 * 2 ^ e
    if 16 ^ 256 ≤ d then none else some d

/-- First digit of a decimal numeral of `k` significant digits that denotes
the double `d` of `n` digits (one that rounds to `d`), if there is one. -/
def leadOfLength (d n k : Nat) : Option Nat :=
  let m := n - k
  let lo := d / 10 ^ m
  if roundDouble (lo * 10 ^ m) = some d then some (lo / 10 ^ (k - 1))
  else if roundDouble ((lo + 1) * 10 ^ m) = some d then
    some (if lo + 1 = 10 ^ k then 1 else (lo + 1) / 10 ^ (k - 1))
  else none

/-- First digit of `String(d)` for a double `d` of integer value: the first
digit of the shortest decimal numeral that denotes `d`; 17 significant digits
always suffice. -/
def shortestLead (d : Nat) : Nat :=
  ((List.range 17).findSome? (fun i => leadOfLength d (digitCount 10 309 d) (i + 1))).getD 0

/-- The function `parseInt` on a string, without radix argument; the integer
parsed is returned as a Number, that is rounded to a double. -/
def parseIntString (s : String) : Value :=
  let t := s.toList.dropWhile isStrWhiteSpaceChar
  let sg := splitSign t
  let rd := splitRadix sg.2
  let ds := takeDigits rd.1 rd.2
  if ds.isEmpty then Value.nan
  else
    match roundDouble (ds.foldl (fun acc d => acc * rd.1 + d) 0) with
    | some d => Value.num (if sg.1 then -(d : Int) else (d : Int))
    | none => Value.infinity sg.1

/-- The function `parseInt(v)`: `v` is first converted to a string. A Number of
integer value below 10 to the 21 prints as its decimal numeral and parses back
to itself; from 10 to the 21 on it prints in exponent form, `d.ddde+N`, of
which `parseInt` reads the first digit; `true`, `false`, `null`, `undefined`,
`NaN` and `Infinity` print as words without a leading digit. -/
def parseInt : Value → Value
  | .num n =>
    match roundDouble n.natAbs with
    | some d =>
      let m : Int := if d < 10 ^ 21 then (d : Int) else (shortestLead d : Int)
      .num (if n < 0 then -m else m)
    | none => .nan
  | .str s => parseIntString s
  | _ => .nan

/-! ## Documents and the collection -/

/-- A document of the `users` collection. A property that a document does not
have is `Value.undefined` (`none` for the two dates). -/
structure User where
  _id : Nat
  firstName : Value
  lastName : Value
  email : Value
  age : Value
  password : Value
  role : Value
  createdAt : Option Nat
  updatedAt : Option Nat
  deriving DecidableEq, Repr

/-- The collection `usersCollection`, in natural order. -/
abbrev Collection := List User

/-- The fields a request body is destructured into
(`const \x7b firstName, lastName, email, age, password, role \x7d = req.body`). -/
structure ReqBody where
  firstName : Value := .undefined
  lastName : Value := .undefined
  email : Value := .undefined
  age : Value := .undefined
  password : Value := .undefined
  role : Value := .undefined
  deriving DecidableEq, Repr

/-- What `res.json` is given. -/
inductive Body where
  | user (u : User)
  | users (l : List User)
  | error (msg : String)
  | deleted (message : String) (deletedCount : Nat)
  | null
  deriving DecidableEq, Repr

/-- An HTTP response: status code and JSON body. -/
structure Response where
  status : Nat
  body : Body
  deriving DecidableEq, Repr

/-! ## ObjectId -/

/-- Value of a hexadecimal digit. -/
def hexDigit (c : Char) : Option Nat :=
  match digitValue c with
  | some d => if d < 16 then some d else none
  | none => none

/-- Number denoted by a string of hexadecimal digits, most significant first. -/
def hexValue : List Char → Option Nat
  | [] => some 0
  | c :: cs =>
    match hexDigit c, hexValue cs with
    | some d, some v => some (d * 16 ^ cs.length + v)
    | _, _ => none

/-- The constructor `new ObjectId(s)` on a string: the 24-digit hexadecimal
form is accepted, any other string makes the constructor throw (`none`). -/
def ObjectId (s : String) : Option Nat :=
  if s.length = 24 then hexValue s.toList else none

/-- The character of a hexadecimal digit, lower case. -/
def hexChar (d : Nat) : Char :=
  if d < 10 then Char.ofNat (48 + d) else Char.ofNat (87 + d)

/-- The `k` lowest hexadecimal digits of `n`, most significant first. -/
def hexDigits : Nat → Nat → List Char
  | 0, _ => []
  | k + 1, n => hexChar (n / 16 ^ k % 16) :: hexDigits k n

/-- The method `toHexString()` of an ObjectId, which is how `res.json` writes
an `_id`: 24 hexadecimal digits. -/
def toHexString (oid : Nat) : String := String.mk (hexDigits 24 oid)

/-! ## Collection operations of the driver -/

/-- Equality match of a query `\x7b field: v \x7d` against a scalar field: `null`
matches an absent or null field, any other value matches itself. -/
def matchesEq (field v : Value) : Bool :=
  match v with
  | .undefined => decide (field = .undefined ∨ field = .null)
  | .null => decide (field = .undefined ∨ field = .null)
  | w => decide (field = w)

/-- The call `findOne(\x7b _id \x7d)`. -/
def findOneById (c : Collection) (oid : Nat) : Option User :=
  c.find? (fun u => decide (u._id = oid))

/-- The call `findOne(\x7b email \x7d)`. -/
def findOneByEmail (c : Collection) (email : Value) : Option User :=
  c.find? (fun u => matchesEq u.email email)

/-- The call `insertOne(doc)`: the document, carrying the ObjectId the driver
generated for it, goes to the end of the collection; the unique index on
`_id` rejects (`none`) an identifier already present. -/
def insertOne (c : Collection) (doc : User) : Option Collection :=
  if c.any (fun u => decide (u._id = doc._id)) then none else some (c ++ [doc])

/-- The object `updateData` of the PUT handler: the properties it was given,
and `updatedAt`, which it always has. -/
structure UpdateData where
  firstName : Option Value := none
  lastName : Option Value := none
  email : Option Value := none
  age : Option Value := none
  password : Option Value := none
  role : Option Value := none
  updatedAt : Nat
  deriving DecidableEq, Repr

/-- The update `\x7b $set: updateData \x7d` applied to one document. -/
def applySet (d : UpdateData) (u : User) : User :=
  { _id := u._id
    firstName := d.firstName.getD u.firstName
    lastName := d.lastName.getD u.lastName
    email := d.email.getD u.email
    age := d.age.getD u.age
    password := d.password.getD u.password
    role := d.role.getD u.role
    createdAt := u.createdAt
    updatedAt := some d.updatedAt }

/-- Replace the first document with the given `_id` by its image. -/
def updateFirst (oid : Nat) (f : User → User) : Collection → Collection
  | [] => []
  | u :: rest => if u._id = oid then f u :: rest else u :: updateFirst oid f rest

/-- The call `findOneAndUpdate(\x7b _id \x7d, \x7b $set: d \x7d, \x7b returnDocument: "after" \x7d)`:
the updated document, or `none` (JavaScript `null`) when no document has
the identifier, and the collection afterwards. -/
def findOneAndUpdate (c : Collection) (oid : Nat) (d : UpdateData) :
    Option User × Collection :=
  match findOneById c oid with
  | some u => (some (applySet d u), updateFirst oid (applySet d) c)
  | none => (none, c)

/-- The call `deleteOne(\x7b _id \x7d)`: `deletedCount` and the collection
afterwards. -/
def deleteOne (c : Collection) (oid : Nat) : Nat × Collection :=
  match findOneById c oid with
  | some _ => (1, c.eraseP (fun u => decide (u._id = oid)))
  | none => (0, c)

/-! ## Sorting and searching of `find` -/

/-- The value a sort compares: a field of a document as the store orders it.
An absent field sorts as `null`. -/
inductive BsonKey where
  | null
  | nan
  | num (n : Int)
  | inf (negative : Bool)
  | str (s : String)
  | objectId (n : Nat)
  | bool (b : Bool)
  | date (t : Nat)
  deriving DecidableEq, Repr

/-- Position of a type in the store's comparison order:
null, numbers, strings, ObjectId, booleans, dates. -/
def BsonKey.rank : BsonKey → Nat
  | .null => 0
  | .nan => 1
  | .num _ => 1
  | .inf _ => 1
  | .str _ => 2
  | .objectId _ => 3
  | .bool _ => 4
  | .date _ => 5

/-- The store's comparison `a ≤ b`: by type first; numbers numerically with
NaN below every number and the infinities at the two ends, strings by code
units, booleans `false` first. -/
def BsonKey.le : BsonKey → BsonKey → Bool
  | .nan, .nan => true
  | .nan, .num _ => true
  | .nan, .inf _ => true
  | .num _, .nan => false
  | .inf _, .nan => false
  | .num a, .num b => decide (a ≤ b)
  | .num _, .inf negative => !negative
  | .inf negative, .num _ => negative
  | .inf a, .inf b => a || !b
  | .str a, .str b => decide (a ≤ b)
  | .objectId a, .objectId b => decide (a ≤ b)
  | .bool a, .bool b => !a || b
  | .date a, .date b => decide (a ≤ b)
  | a, b => decide (a.rank ≤ b.rank)

/-- A scalar as a sort key. -/
def Value.toKey : Value → BsonKey
  | .undefined => .null
  | .null => .null
  | .bool b => .bool b
  | .num n => .num n
  | .nan => .nan
  | .infinity negative => .inf negative
  | .str s => .str s

/-- A date property as a sort key. -/
def dateKey : Option Nat → BsonKey
  | some t => .date t
  | none => .null

/-- The sort key of a document under a field name; a name that is no property
of the document gives `null`. -/
def User.key (u : User) (field : String) : BsonKey :=
  if field = "_id" then .objectId u._id
  else if field = "firstName" then u.firstName.toKey
  else if field = "lastName" then u.lastName.toKey
  else if field = "email" then u.email.toKey
  else if field = "age" then u.age.toKey
  else if field = "password" then u.password.toKey
  else if field = "role" then u.role.toKey
  else if field = "createdAt" then dateKey u.createdAt
  else if field = "updatedAt" then dateKey u.updatedAt
  else .null

/-- The object `sortOptions`: empty, or one field with direction `1` or `-1`. -/
abbrev SortOptions := Option (String × Int)

/-- Field names the model of `sort` covers: letters, digits and `_` only (no
`$` operator, no dotted path), and not the name `__proto__`, which an
assignment `sortOptions[sortBy] = ...` does not store as a property. -/
def plainFieldName (s : String) : Bool :=
  s.toList.all (fun c => c.isAlphanum || decide (c.toNat = 95)) && decide (s ≠ "__proto__")

/-- The order a sort specification puts two documents in. -/
def sortRel (field : String) (dir : Int) (a b : User) : Prop :=
  if dir = -1 then BsonKey.le (b.key field) (a.key field) = true
  else BsonKey.le (a.key field) (b.key field) = true

instance (field : String) (dir : Int) : DecidableRel (sortRel field dir) :=
  fun a b =>
    inferInstanceAs (Decidable (if dir = -1 then BsonKey.le (b.key field) (a.key field) = true
      else BsonKey.le (a.key field) (b.key field) = true))

/-- The cursor method `sort(sortOptions)`: natural order for the empty
specification, else the documents ordered by the field, ties in natural
order. -/
def sortDocs (o : SortOptions) (l : List User) : List User :=
  match o with
  | none => l
  | some (field, dir) => l.insertionSort (sortRel field dir)

/-- One element of a compiled pattern: a literal ASCII character or `.`. -/
inductive Atom where
  | lit (c : Char)
  | any
  deriving DecidableEq, Repr

/-- Characters with a special meaning in a regular expression:
backslash, caret, dollar, dot, brackets, bar, parentheses, question mark,
star, plus and braces. -/
def regexSpecial : List Nat := [92, 94, 36, 46, 91, 93, 124, 40, 41, 63, 42, 43, 123, 125]

/-- Compile a pattern of the modelled fragment of the regular-expression
language: literal ASCII characters and `.`. A pattern using any other special
character, or a character beyond ASCII, is outside the fragment (`none`). -/
def compileRegex : List Char → Option (List Atom)
  | [] => some []
  | c :: cs =>
    if c.toNat = 46 then (compileRegex cs).map (fun r => Atom.any :: r)
    else if c.toNat ∈ regexSpecial ∨ 128 ≤ c.toNat then none
    else (compileRegex cs).map (fun r => Atom.lit c :: r)

/-- The letter a character stands for when case is ignored, as far as ASCII is
concerned: an ASCII capital is its small letter, and the Kelvin sign (U+212A)
and the long s (U+017F), the two characters beyond ASCII that are
case-equivalent to an ASCII letter in a UTF pattern, are `k` and `s`. -/
def caseFold (c : Char) : Char :=
  if c.toNat = 8490 then Char.ofNat 107
  else if c.toNat = 383 then Char.ofNat 115
  else c.toLower

/-- One pattern element against one character, under option `i`: a literal
(an ASCII character) matches up to case, `.` matches anything but a line
feed. -/
def Atom.accepts : Atom → Char → Bool
  | .lit p, c => decide (caseFold p = caseFold c)
  | .any, c => decide (c.toNat ≠ 10)

/-- The pattern matches at the front of the text. -/
def matchHere : List Atom → List Char → Bool
  | [], _ => true
  | _ :: _, [] => false
  | a :: r, c :: cs => a.accepts c && matchHere r cs

/-- The pattern matches somewhere in the text (a regular expression is not
anchored). -/
def matchAnywhere (p : List Atom) : List Char → Bool
  | [] => matchHere p []
  | c :: cs => matchHere p (c :: cs) || matchAnywhere p cs

/-- The condition `\x7b field: \x7b $regex: p, $options: "i" \x7d \x7d` on a scalar field:
only a string can match. -/
def regexField (p : List Atom) : Value → Bool
  | .str s => matchAnywhere p s.toList
  | _ => false

/-- The object `query` of the list handler: `\x7b\x7d`, or the `$or` of the regular
expression on `firstName` and on `lastName`. -/
abbrev Query := Option (List Atom)

/-- The call `find(query)`: the matching documents in natural order. -/
def find (c : Collection) (q : Query) : List User :=
  match q with
  | none => c
  | some p => c.filter (fun u => regexField p u.firstName || regexField p u.lastName)

/-! ## The route handlers -/

/-- The query string of `GET /api/users`: each parameter absent or a string. -/
structure ListParams where
  sortBy : Option String := none
  order : Option String := none
  search : Option String := none
  deriving DecidableEq, Repr

/-- Truthiness of a query parameter: present and not the empty string. -/
def paramTruthy : Option String → Bool
  | some s => decide (s ≠ "")
  | none => false

/-- The block `let sortOptions = \x7b\x7d; if (sortBy) \x7b ... \x7d` of the list handler. -/
def buildSortOptions (sortBy order : Option String) : SortOptions :=
  match sortBy with
  | some f =>
    if paramTruthy (some f) then
      let sortOrder : Int := if order = some "desc" then -1 else 1
      some (f, sortOrder)
    else none
  | none => none

/-- The block `let query = \x7b\x7d; if (search) \x7b ... \x7d` of the list handler;
`none` where the search string leaves the modelled fragment of the
regular-expression language. -/
def buildQuery (search : Option String) : Option Query :=
  match search with
  | some s => if paramTruthy (some s) then (compileRegex s.toList).map some else some none
  | none => some none

/-- The handler of `GET /api/users`. The result is `none` where the request
leaves the modelled fragment: a search pattern with a special character
other than `.` or with a character beyond ASCII, or a sort field that is not
a plain name. -/
def getUsers (c : Collection) (q : ListParams) : Option Response :=
  let sortOptions := buildSortOptions q.sortBy q.order
  let sortOk : Bool :=
    match sortOptions with
    | some (f, _) => plainFieldName f
    | none => true
  match buildQuery q.search, sortOk with
  | some query, true => some ⟨200, Body.users (sortDocs sortOptions (find c query))⟩
  | _, _ => none

/-- The handler of `GET /api/users/:id`. -/
def getUser (c : Collection) (id : String) : Response :=
  match ObjectId id with
  | none => ⟨500, Body.error "Failed to fetch user"⟩
  | some oid =>
    match findOneById c oid with
    | none => ⟨404, Body.error "User not found"⟩
    | some user => ⟨200, Body.user user⟩

/-- The validation of the create handler:
`!firstName || !lastName || !email || !age`. -/
def missingRequired (b : ReqBody) : Bool :=
  !b.firstName.truthy || !b.lastName.truthy || !b.email.truthy || !b.age.truthy

/-- The object `newUser` of the create handler, with the ObjectId the driver
gives it on insertion. -/
def newUser (b : ReqBody) (now oid : Nat) : User :=
  { _id := oid
    firstName := b.firstName
    lastName := b.lastName
    email := b.email
    age := parseInt b.age
    password := b.password.or (.str "defaultPassword")
    role := b.role.or (.str "user")
    createdAt := some now
    updatedAt := none }

/-- The handler of `POST /api/users`: response and collection afterwards. -/
def postUser (c : Collection) (b : ReqBody) (now oid : Nat) : Response × Collection :=
  if missingRequired b then
    (⟨400, Body.error "firstName, lastName, email, and age are required"⟩, c)
  else
    match findOneByEmail c b.email with
    | some _ => (⟨400, Body.error "Email already exists"⟩, c)
    | none =>
      match insertOne c (newUser b now oid) with
      | none => (⟨500, Body.error "Failed to create user"⟩, c)
      | some c1 =>
        match findOneById c1 oid with
        | some insertedUser => (⟨201, Body.user insertedUser⟩, c1)
        | none => (⟨201, Body.null⟩, c1)

/-- One line `if (v) updateData.field = v` of the update handler. -/
def setIfTruthy (v : Value) : Option Value := if v.truthy then some v else none

/-- The object `updateData` the update handler builds from the body. -/
def buildUpdateData (b : ReqBody) (now : Nat) : UpdateData :=
  { firstName := setIfTruthy b.firstName
    lastName := setIfTruthy b.lastName
    email := setIfTruthy b.email
    age := if b.age.truthy then some (parseInt b.age) else none
    password := setIfTruthy b.password
    role := setIfTruthy b.role
    updatedAt := now }

/-- The handler of `PUT /api/users/:id`: response and collection afterwards. -/
def putUser (c : Collection) (id : String) (b : ReqBody) (now : Nat) : Response × Collection :=
  match ObjectId id with
  | none => (⟨500, Body.error "Failed to update user"⟩, c)
  | some oid =>
    match findOneAndUpdate c oid (buildUpdateData b now) with
    | (none, c1) => (⟨404, Body.error "User not found"⟩, c1)
    | (some result, c1) => (⟨200, Body.user result⟩, c1)

/-- The handler of `DELETE /api/users/:id`: response and collection afterwards. -/
def deleteUser (c : Collection) (id : String) : Response × Collection :=
  match ObjectId id with
  | none => (⟨500, Body.error "Failed to delete user"⟩, c)
  | some oid =>
    match deleteOne c oid with
    | (0, c1) => (⟨404, Body.error "User not found"⟩, c1)
    | (n + 1, c1) => (⟨200, Body.deleted "User deleted successfully" (n + 1)⟩, c1)

/-- The array `defaultUsers` of `insertDefaultUsers`, one document per ObjectId
the driver supplies. -/
def defaultUser (first last email : String) (age : Int) (role : String) (oid : Nat) : User :=
  { _id := oid, firstName := .str first, lastName := .str last, email := .str email,
    age := .num age, password := .str "password123", role := .str role,
    createdAt := none, updatedAt := none }

/-- The function `insertDefaultUsers` on the empty collection: `insertMany`
of the ten default users, the i-th with ObjectId `base + i`. -/
def insertDefaultUsers (base : Nat) : Collection :=
  [ defaultUser "John" "Doe" "john.doe@email.com" 28 "user" base,
    defaultUser "Jane" "Smith" "jane.smith@email.com" 32 "admin" (base + 1),
    defaultUser "Alice" "Johnson" "alice.j@email.com" 25 "user" (base + 2),
    defaultUser "Bob" "Williams" "bob.w@email.com" 45 "user" (base + 3),
    defaultUser "Charlie" "Brown" "charlie.b@email.com" 38 "moderator" (base + 4),
    defaultUser "Diana" "Davis" "diana.d@email.com" 29 "user" (base + 5),
    defaultUser "Eve" "Martinez" "eve.m@email.com" 41 "user" (base + 6),
    defaultUser "Frank" "Garcia" "frank.g@email.com" 35 "admin" (base + 7),
    defaultUser "Grace" "Wilson" "grace.w@email.com" 27 "user" (base + 8),
    defaultUser "Henry" "Anderson" "henry.a@email.com" 50 "user" (base + 9) ]

/-! ## Requests in sequence, and the words of the specification -/

/-- The request of the scenario of the specification:
Ann Lee, `a@x.com`, with the given age and password. -/
def annLee (age : Value) (password : Value) : ReqBody :=
  { firstName := Value.str "Ann", lastName := Value.str "Lee", email := Value.str "a@x.com",
    age := age, password := password }

/-- The words of the specification for a required field: present, not null,
not empty. -/
def presentNonEmpty (v : Value) : Prop :=
  v ≠ Value.undefined ∧ v ≠ Value.null ∧ v ≠ Value.str ""

/-- The answer of the create handler to a request that fails validation. -/
def validationError : Response :=
  ⟨400, Body.error "firstName, lastName, email, and age are required"⟩

/-- A write request to the API. -/
inductive Request where
  | create (b : ReqBody) (now oid : Nat)
  | update (id : String) (b : ReqBody) (now : Nat)
  | delete (id : String)
  deriving DecidableEq, Repr

/-- The collection after one request. -/
def step (c : Collection) : Request → Collection
  | .create b now oid => (postUser c b now oid).2
  | .update id b now => (putUser c id b now).2
  | .delete id => (deleteUser c id).2

/-- The collection after a sequence of requests, one after the other. -/
def run (c : Collection) (rs : List Request) : Collection := rs.foldl step c

/-- No two documents of the collection have the same email. -/
def emailsUnique (c : Collection) : Prop := c.Pairwise (fun u v => u.email ≠ v.email)

instance (c : Collection) : Decidable (emailsUnique c) :=
  inferInstanceAs (Decidable (List.Pairwise (fun (u v : User) => u.email ≠ v.email) c))

/-- The words of the specification for the filter, for a search string of
ASCII characters: the value is a text that contains `s` as a contiguous run of
characters, letters compared without regard to case. For a search string with
a character beyond ASCII the words are not rendered (`none`). -/
def containsIgnoreCase (s : String) (v : Value) : Option Bool :=
  if s.toList.all (fun ch => decide (ch.toNat < 128)) then
    match v with
    | .str t => some (decide (s.toList.map caseFold <:+: t.toList.map caseFold))
    | _ => some false
  else none

/-- The words of the specification for a record that matches the filter: its
`firstName` or its `lastName` contains the search string. -/
def nameContains (s : String) (u : User) : Bool :=
  decide (containsIgnoreCase s u.firstName = some true ∨
    containsIgnoreCase s u.lastName = some true)

/-- The words of the amended specification for a record that contains the
input of a create request: `firstName`, `lastName` and `email` as supplied; the
age as supplied when it is an integer that is a double (not changed by
rounding) and below 10 to the 21; `password` and `role` as supplied when
truthy, the defaults otherwise. -/
def carriesInput (b : ReqBody) (r : User) : Prop :=
  r.firstName = b.firstName ∧ r.lastName = b.lastName ∧ r.email = b.email ∧
    (∀ n : Int, b.age = Value.num n → roundDouble n.natAbs = some n.natAbs →
      n.natAbs < 10 ^ 21 → r.age = Value.num n) ∧
    (b.password.truthy = true → r.password = b.password) ∧
    (b.password.truthy = false → r.password = Value.str "defaultPassword") ∧
    (b.role.truthy = true → r.role = b.role) ∧
    (b.role.truthy = false → r.role = Value.str "user")

/-- Modelled from the spec: the identifier the driver generates for an
insert, which is not part of the repository. The specification says that
create "assigns a fresh unique `id`"; the model takes the number after the
greatest identifier of the collection. -/
def generatedId (c : Collection) : Nat :=
  (c.map (fun u => u._id)).foldr max 0 + 1

/-! ## Lemmas on ObjectId -/

theorem hexDigit_hexChar (d : Nat) (h : d < 16) : hexDigit (hexChar d) = some d := by
  interval_cases d <;> decide

theorem length_hexDigits (k n : Nat) : (hexDigits k n).length = k := by
  induction k with
  | zero => rfl
  | succ k ih => simp [hexDigits, ih]

theorem hexValue_hexDigits (k n : Nat) : hexValue (hexDigits k n) = some (n % 16 ^ k) := by
  induction k with
  | zero => simp [hexDigits, hexValue, Nat.mod_one]
  | succ k ih =>
    have hd : n / 16 ^ k % 16 < 16 := Nat.mod_lt _ (by norm_num)
    simp only [hexDigits, hexValue, hexDigit_hexChar _ hd, ih, length_hexDigits]
    rw [Nat.mod_pow_succ]
    congr 1
    rw [Nat.mul_comm, Nat.add_comm]

/-- The identifier string a response carries for a document parses back to
the document's ObjectId. -/
theorem ObjectId_toHexString (oid : Nat) (h : oid < 16 ^ 24) :
    ObjectId (toHexString oid) = some oid := by
  have hl : (toHexString oid).length = 24 := by
    simp [toHexString, String.length, length_hexDigits]
  unfold ObjectId
  rw [if_pos hl]
  show hexValue (hexDigits 24 oid) = some oid
  rw [hexValue_hexDigits, Nat.mod_eq_of_lt h]

/-! ## Lemmas on the collection operations -/

theorem findOneById_none_iff (c : Collection) (oid : Nat) :
    findOneById c oid = none ↔ ∀ u ∈ c, u._id ≠ oid := by
  simp [findOneById, List.find?_eq_none]

/-- A collection holding a document with identifier `oid` splits at the first
such document, and the three operations by identifier act at that place. -/
theorem split_at_id (c : Collection) (oid : Nat) (h : ∃ u ∈ c, u._id = oid) :
    ∃ pre u post, c = pre ++ u :: post ∧ u._id = oid ∧ (∀ v ∈ pre, v._id ≠ oid) ∧
      findOneById c oid = some u ∧
      (∀ f, updateFirst oid f c = pre ++ f u :: post) ∧
      c.eraseP (fun v => decide (v._id = oid)) = pre ++ post := by
  induction c with
  | nil => simp at h
  | cons a rest ih =>
    by_cases ha : a._id = oid
    · refine ⟨[], a, rest, by simp, ha, by simp, ?_, ?_, ?_⟩
      · simp [findOneById, ha]
      · intro f
        simp [updateFirst, ha]
      · simp [List.eraseP_cons, ha]
    · have h2 : ∃ u ∈ rest, u._id = oid := by
        obtain ⟨u, hu, hid⟩ := h
        rcases List.mem_cons.1 hu with rfl | hu
        · exact absurd hid ha
        · exact ⟨u, hu, hid⟩
      obtain ⟨pre, u, post, hc, hu, hpre, hfind, hupd, hdel⟩ := ih h2
      refine ⟨a :: pre, u, post, by simp [hc], hu, ?_, ?_, ?_, ?_⟩
      · intro v hv
        rcases List.mem_cons.1 hv with rfl | hv
        · exact ha
        · exact hpre v hv
      · simpa [findOneById, ha] using hfind
      · intro f
        simp [updateFirst, ha, hupd f]
      · simp [List.eraseP_cons, ha, hdel]

theorem truthy_matchesEq (f e : Value) (he : e.truthy = true) :
    matchesEq f e = decide (f = e) := by
  cases e <;> simp_all [matchesEq, Value.truthy]

theorem findOneByEmail_none_iff (c : Collection) (e : Value) (he : e.truthy = true) :
    findOneByEmail c e = none ↔ ∀ u ∈ c, u.email ≠ e := by
  simp [findOneByEmail, List.find?_eq_none, truthy_matchesEq _ e he]

theorem missingRequired_false_iff (b : ReqBody) :
    missingRequired b = false ↔
      b.firstName.truthy = true ∧ b.lastName.truthy = true ∧ b.email.truthy = true ∧
        b.age.truthy = true := by
  simp [missingRequired, and_assoc]

theorem findOneById_append_new (c : Collection) (d : User) (h : ∀ u ∈ c, u._id ≠ d._id) :
    findOneById (c ++ [d]) d._id = some d := by
  induction c with
  | nil => simp [findOneById]
  | cons a rest ih =>
    have ha : a._id ≠ d._id := h a (List.mem_cons_self _ _)
    have hr : ∀ u ∈ rest, u._id ≠ d._id := fun u hu => h u (List.mem_cons_of_mem _ hu)
    have := ih hr
    simpa [findOneById, ha] using this

theorem generatedId_fresh (c : Collection) : ∀ u ∈ c, u._id ≠ generatedId c := by
  have key : ∀ (l : Collection), ∀ u ∈ l, u._id ≤ (l.map (fun v => v._id)).foldr max 0 := by
    intro l
    induction l with
    | nil => simp
    | cons a rest ih =>
      intro u hu
      rcases List.mem_cons.1 hu with rfl | hu
      · simp
      · have := ih u hu
        simp only [List.map_cons, List.foldr_cons]
        omega
  intro u hu
  have := key c u hu
  unfold generatedId
  omega

theorem parseInt_double (n : Int) (h : roundDouble n.natAbs = some n.natAbs)
    (hlt : n.natAbs < 10 ^ 21) : parseInt (Value.num n) = Value.num n := by
  simp only [parseInt, h, hlt, if_true]
  congr 1
  split <;> omega

theorem newUser_carriesInput (b : ReqBody) (now oid : Nat) :
    carriesInput b (newUser b now oid) := by
  refine ⟨rfl, rfl, rfl, ?_, ?_, ?_, ?_, ?_⟩
  · intro n hn hd hlt
    simp only [newUser, hn]
    exact parseInt_double n hd hlt
  · intro h
    simp [newUser, Value.or, h]
  · intro h
    simp [newUser, Value.or, h]
  · intro h
    simp [newUser, Value.or, h]
  · intro h
    simp [newUser, Value.or, h]

/-- A create request that passes validation, with an email no document has and
a new ObjectId, stores `newUser` at the end and answers 201 with it. -/
theorem postUser_created (c : Collection) (b : ReqBody) (now oid : Nat)
    (hval : missingRequired b = false) (hemail : ∀ u ∈ c, u.email ≠ b.email)
    (hfresh : ∀ u ∈ c, u._id ≠ oid) :
    postUser c b now oid =
      (⟨201, Body.user (newUser b now oid)⟩, c ++ [newUser b now oid]) := by
  have he : b.email.truthy = true := ((missingRequired_false_iff b).1 hval).2.2.1
  have h1 : findOneByEmail c b.email = none := (findOneByEmail_none_iff c _ he).2 hemail
  have h2 : insertOne c (newUser b now oid) = some (c ++ [newUser b now oid]) := by
    have : c.any (fun u => decide (u._id = (newUser b now oid)._id)) = false := by
      simpa [newUser, List.any_eq_false] using hfresh
    simp [insertOne, this]
  have h3 : findOneById (c ++ [newUser b now oid]) oid = some (newUser b now oid) :=
    findOneById_append_new c (newUser b now oid) hfresh
  simp [postUser, hval, h1, h2, h3]

/-- A create request answered 201 passed validation, met no document with its
email and was given a new ObjectId. -/
theorem postUser_status_created (c : Collection) (b : ReqBody) (now oid : Nat)
    (h : (postUser c b now oid).1.status = 201) :
    missingRequired b = false ∧ (∀ u ∈ c, u.email ≠ b.email) ∧ ∀ u ∈ c, u._id ≠ oid := by
  unfold postUser at h
  by_cases hval : missingRequired b = true
  · simp [hval] at h
  · have hval2 : missingRequired b = false := by simpa using hval
    have he : b.email.truthy = true := ((missingRequired_false_iff b).1 hval2).2.2.1
    cases h1 : findOneByEmail c b.email with
    | some u => simp [hval2, h1] at h
    | none =>
      refine ⟨hval2, (findOneByEmail_none_iff c _ he).1 h1, ?_⟩
      by_cases hany : c.any (fun u => decide (u._id = (newUser b now oid)._id)) = true
      · simp [hval2, h1, insertOne, hany] at h
      · simpa [newUser, List.any_eq_false] using hany

/-! ## Update -/

/-- C1: for every collection, every identifier of a document in it and every
non-empty string X, `PUT /api/users/:id` with body `lastName: X` answers 200
with the first document of that identifier in which `lastName` is X and
`updatedAt` is the current time, every other field (`_id`, `firstName`,
`email`, `age`, `password`, `role`, `createdAt`) as before; the collection
afterwards differs from the one before at that document only. -/
theorem put_lastName_frame (c : Collection) (id : String) (oid : Nat) (X : String) (now : Nat)
    (hid : ObjectId id = some oid) (hmem : ∃ u ∈ c, u._id = oid) (hX : X ≠ "") :
    ∃ pre u post, c = pre ++ u :: post ∧ u._id = oid ∧ (∀ v ∈ pre, v._id ≠ oid) ∧
      putUser c id { lastName := Value.str X } now =
        (⟨200, Body.user { u with lastName := Value.str X, updatedAt := some now }⟩,
          pre ++ { u with lastName := Value.str X, updatedAt := some now } :: post) := by
  obtain ⟨pre, u, post, hc, hu, hpre, hfind, hupd, _⟩ := split_at_id c oid hmem
  refine ⟨pre, u, post, hc, hu, hpre, ?_⟩
  simp [putUser, hid, findOneAndUpdate, hfind, hupd, buildUpdateData, setIfTruthy,
    Value.truthy, hX, applySet]

theorem put_lastName_frame_witness :
    ∃ pre u post, insertDefaultUsers 1 = pre ++ u :: post ∧ u._id = 2 ∧
      (∀ v ∈ pre, v._id ≠ 2) ∧
      putUser (insertDefaultUsers 1) "000000000000000000000002" { lastName := Value.str "X" } 7 =
        (⟨200, Body.user { u with lastName := Value.str "X", updatedAt := some 7 }⟩,
          pre ++ { u with lastName := Value.str "X", updatedAt := some 7 } :: post) :=
  put_lastName_frame (insertDefaultUsers 1) "000000000000000000000002" 2 "X" 7 (by decide)
    ⟨defaultUser "Jane" "Smith" "jane.smith@email.com" 32 "admin" 2,
      by simp [insertDefaultUsers], rfl⟩ (by decide)

/-- C2: for every collection and every identifier of a document in it,
`PUT /api/users/:id` answers 200 with a document in which each of
`firstName`, `lastName`, `email`, `age`, `password`, `role` whose request
value is falsy (absent, null, false, zero, the empty string) has its prior
value; with body `age: 0` the answer is the prior document with only
`updatedAt` changed, and the collection changes at that document only. -/
theorem put_skips_falsy (c : Collection) (id : String) (oid : Nat) (b : ReqBody) (now : Nat)
    (hid : ObjectId id = some oid) (hmem : ∃ u ∈ c, u._id = oid) :
    (∀ v ∈ [Value.undefined, Value.null, Value.bool false, Value.num 0, Value.str ""],
        v.truthy = false) ∧
    ∃ pre u post, c = pre ++ u :: post ∧ u._id = oid ∧ (∀ v ∈ pre, v._id ≠ oid) ∧
      (∃ r, putUser c id b now = (⟨200, Body.user r⟩, pre ++ r :: post) ∧
        (b.firstName.truthy = false → r.firstName = u.firstName) ∧
        (b.lastName.truthy = false → r.lastName = u.lastName) ∧
        (b.email.truthy = false → r.email = u.email) ∧
        (b.age.truthy = false → r.age = u.age) ∧
        (b.password.truthy = false → r.password = u.password) ∧
        (b.role.truthy = false → r.role = u.role) ∧
        r._id = u._id ∧ r.createdAt = u.createdAt ∧ r.updatedAt = some now) ∧
      putUser c id { age := Value.num 0 } now =
        (⟨200, Body.user { u with updatedAt := some now }⟩,
          pre ++ { u with updatedAt := some now } :: post) := by
  refine ⟨by simp [Value.truthy], ?_⟩
  obtain ⟨pre, u, post, hc, hu, hpre, hfind, hupd, _⟩ := split_at_id c oid hmem
  refine ⟨pre, u, post, hc, hu, hpre, ⟨applySet (buildUpdateData b now) u, ?_, ?_⟩, ?_⟩
  · simp [putUser, hid, findOneAndUpdate, hfind, hupd]
  · refine ⟨?_, ?_, ?_, ?_, ?_, ?_, rfl, rfl, rfl⟩ <;> intro h <;>
      simp [applySet, buildUpdateData, setIfTruthy, h]
  · simp [putUser, hid, findOneAndUpdate, hfind, hupd, buildUpdateData, setIfTruthy,
      Value.truthy, applySet]

theorem put_skips_falsy_witness :
    (∀ v ∈ [Value.undefined, Value.null, Value.bool false, Value.num 0, Value.str ""],
        v.truthy = false) ∧
    ∃ pre u post, insertDefaultUsers 1 = pre ++ u :: post ∧ u._id = 2 ∧
      (∀ v ∈ pre, v._id ≠ 2) ∧
      (∃ r, putUser (insertDefaultUsers 1) "000000000000000000000002"
            { age := Value.num 0, role := Value.str "" } 7 =
          (⟨200, Body.user r⟩, pre ++ r :: post) ∧
        (Value.undefined.truthy = false → r.firstName = u.firstName) ∧
        (Value.undefined.truthy = false → r.lastName = u.lastName) ∧
        (Value.undefined.truthy = false → r.email = u.email) ∧
        ((Value.num 0).truthy = false → r.age = u.age) ∧
        (Value.undefined.truthy = false → r.password = u.password) ∧
        ((Value.str "").truthy = false → r.role = u.role) ∧
        r._id = u._id ∧ r.createdAt = u.createdAt ∧ r.updatedAt = some 7) ∧
      putUser (insertDefaultUsers 1) "000000000000000000000002" { age := Value.num 0 } 7 =
        (⟨200, Body.user { u with updatedAt := some 7 }⟩,
          pre ++ { u with updatedAt := some 7 } :: post) :=
  put_skips_falsy (insertDefaultUsers 1) "000000000000000000000002" 2
    { age := Value.num 0, role := Value.str "" } 7 (by decide)
    ⟨defaultUser "Jane" "Smith" "jane.smith@email.com" 32 "admin" 2,
      by simp [insertDefaultUsers], rfl⟩

/-! ## Delete -/

theorem no_other_with_id (pre post : Collection) (u : User)
    (hnodup : ((pre ++ u :: post).map (fun v => v._id)).Nodup) :
    ∀ v ∈ pre ++ post, v._id ≠ u._id := by
  intro v hv
  simp only [List.map_append, List.map_cons] at hnodup
  have h1 := List.nodup_middle.1 hnodup
  rw [List.nodup_cons] at h1
  intro hEq
  apply h1.1
  rw [← hEq, ← List.map_append]
  exact List.mem_map_of_mem _ hv

/-- C9: in a collection whose identifiers are pairwise different (the unique
index on `_id`), `DELETE /api/users/:id` for the identifier of a document
present removes that one document and nothing else and answers 200 with
`deletedCount` 1, and `GET /api/users/:id` on the collection afterwards
answers 404; for a well-formed identifier of no document it answers 404 and
leaves the collection as it was. -/
theorem delete_removes_one (c : Collection) (id : String) (oid : Nat)
    (hid : ObjectId id = some oid) (hnodup : (c.map (fun v => v._id)).Nodup) :
    ((∃ u ∈ c, u._id = oid) →
      ∃ pre u post, c = pre ++ u :: post ∧ u._id = oid ∧
        deleteUser c id =
          (⟨200, Body.deleted "User deleted successfully" 1⟩, pre ++ post) ∧
        getUser (deleteUser c id).2 id = ⟨404, Body.error "User not found"⟩) ∧
    ((∀ u ∈ c, u._id ≠ oid) →
      deleteUser c id = (⟨404, Body.error "User not found"⟩, c)) := by
  constructor
  · intro hmem
    obtain ⟨pre, u, post, hc, hu, _, hfind, _, hdel⟩ := split_at_id c oid hmem
    have hd : deleteUser c id =
        (⟨200, Body.deleted "User deleted successfully" 1⟩, pre ++ post) := by
      simp [deleteUser, hid, deleteOne, hfind, hdel]
    refine ⟨pre, u, post, hc, hu, hd, ?_⟩
    have hno : findOneById (pre ++ post) oid = none := by
      rw [findOneById_none_iff]
      rw [hc] at hnodup
      simpa [hu] using no_other_with_id pre post u hnodup
    simp [hd, getUser, hid, hno]
  · intro hno
    have : findOneById c oid = none := (findOneById_none_iff c oid).2 hno
    simp [deleteUser, hid, deleteOne, this]

theorem delete_removes_one_witness :
    (∃ pre u post, insertDefaultUsers 1 = pre ++ u :: post ∧ u._id = 2 ∧
        deleteUser (insertDefaultUsers 1) "000000000000000000000002" =
          (⟨200, Body.deleted "User deleted successfully" 1⟩, pre ++ post) ∧
        getUser (deleteUser (insertDefaultUsers 1) "000000000000000000000002").2
          "000000000000000000000002" = ⟨404, Body.error "User not found"⟩) ∧
    deleteUser (insertDefaultUsers 1) "0000000000000000000000ff" =
      (⟨404, Body.error "User not found"⟩, insertDefaultUsers 1) :=
  ⟨(delete_removes_one (insertDefaultUsers 1) "000000000000000000000002" 2 (by decide)
      (by decide)).1
      ⟨defaultUser "Jane" "Smith" "jane.smith@email.com" 32 "admin" 2,
        by simp [insertDefaultUsers], rfl⟩,
    (delete_removes_one (insertDefaultUsers 1) "0000000000000000000000ff" 255 (by decide)
      (by decide)).2 (by decide)⟩

/-! ## Create -/

/-- C4: a create request that passes validation and whose email equals, as a
value, the email of a document of the collection is answered 400
`Email already exists` and leaves the collection as it was; so after a create
answered 201, a second valid create with the same email is answered 400
`Email already exists` and stores nothing. -/
theorem post_duplicate_email (c : Collection) (b : ReqBody) (now oid : Nat)
    (hval : missingRequired b = false) :
    ((∃ u ∈ c, u.email = b.email) →
      postUser c b now oid = (⟨400, Body.error "Email already exists"⟩, c)) ∧
    (∀ (b0 : ReqBody) (now0 oid0 : Nat), (postUser c b0 now0 oid0).1.status = 201 →
      b0.email = b.email →
      postUser (postUser c b0 now0 oid0).2 b now oid =
        (⟨400, Body.error "Email already exists"⟩, (postUser c b0 now0 oid0).2)) := by
  have he : b.email.truthy = true := ((missingRequired_false_iff b).1 hval).2.2.1
  have key : ∀ c1 : Collection, (∃ u ∈ c1, u.email = b.email) →
      postUser c1 b now oid = (⟨400, Body.error "Email already exists"⟩, c1) := by
    intro c1 hdup
    cases h1 : findOneByEmail c1 b.email with
    | none =>
      obtain ⟨u, hu, hue⟩ := hdup
      exact absurd hue ((findOneByEmail_none_iff c1 _ he).1 h1 u hu)
    | some u => simp [postUser, hval, h1]
  refine ⟨key c, ?_⟩
  intro b0 now0 oid0 h201 hmail
  obtain ⟨hv0, hm0, hf0⟩ := postUser_status_created c b0 now0 oid0 h201
  rw [postUser_created c b0 now0 oid0 hv0 hm0 hf0]
  exact key _ ⟨newUser b0 now0 oid0, by simp, by simp [newUser, hmail]⟩

theorem post_duplicate_email_witness :
    postUser (insertDefaultUsers 1) (annLee (Value.num 30) Value.undefined) 9 20 =
        (⟨201, Body.user (newUser (annLee (Value.num 30) Value.undefined) 9 20)⟩,
          insertDefaultUsers 1 ++ [newUser (annLee (Value.num 30) Value.undefined) 9 20]) ∧
      postUser (postUser (insertDefaultUsers 1) (annLee (Value.num 30) Value.undefined) 9 20).2
          (annLee (Value.num 31) (Value.str "pw")) 10 21 =
        (⟨400, Body.error "Email already exists"⟩,
          (postUser (insertDefaultUsers 1) (annLee (Value.num 30) Value.undefined) 9 20).2) ∧
      postUser (insertDefaultUsers 1)
          { firstName := Value.str "Jon", lastName := Value.str "Doe",
            email := Value.str "john.doe@email.com", age := Value.num 5 } 10 21 =
        (⟨400, Body.error "Email already exists"⟩, insertDefaultUsers 1) :=
  ⟨by decide,
    (post_duplicate_email (insertDefaultUsers 1) (annLee (Value.num 31) (Value.str "pw")) 10 21
      (by decide)).2 (annLee (Value.num 30) Value.undefined) 9 20 (by decide) (by decide),
    (post_duplicate_email (insertDefaultUsers 1)
      { firstName := Value.str "Jon", lastName := Value.str "Doe",
        email := Value.str "john.doe@email.com", age := Value.num 5 } 10 21 (by decide)).1
      ⟨defaultUser "John" "Doe" "john.doe@email.com" 28 "user" 1,
        by simp [insertDefaultUsers], rfl⟩⟩

/-- C5, as stated, fails: a create request whose four required fields are all
present, non-null and non-empty, the age being the integer 0, is answered
with the validation error. -/
theorem post_age_zero_rejected :
    presentNonEmpty (annLee (Value.num 0) Value.undefined).firstName ∧
      presentNonEmpty (annLee (Value.num 0) Value.undefined).lastName ∧
      presentNonEmpty (annLee (Value.num 0) Value.undefined).email ∧
      presentNonEmpty (annLee (Value.num 0) Value.undefined).age ∧
      postUser [] (annLee (Value.num 0) Value.undefined) 9 20 = (validationError, []) := by
  refine ⟨?_, ?_, ?_, ?_, ?_⟩ <;> first | decide | simp [presentNonEmpty, annLee]

/-- C5, amended: a create request in which one of `firstName`, `lastName`,
`email`, `age` is falsy (in particular absent, null or the empty string) is
answered 400 with the validation error whatever the collection holds, which
stays as it was; a request in which all four are truthy is not answered with
the validation error. -/
theorem post_validation (c : Collection) (b : ReqBody) (now oid : Nat) :
    (∀ v, v = Value.undefined ∨ v = Value.null ∨ v = Value.str "" → v.truthy = false) ∧
    ((b.firstName.truthy = false ∨ b.lastName.truthy = false ∨ b.email.truthy = false ∨
        b.age.truthy = false) →
      postUser c b now oid = (validationError, c)) ∧
    ((b.firstName.truthy = true ∧ b.lastName.truthy = true ∧ b.email.truthy = true ∧
        b.age.truthy = true) →
      (postUser c b now oid).1 ≠ validationError) := by
  refine ⟨?_, ?_, ?_⟩
  · rintro v (rfl | rfl | rfl) <;> simp [Value.truthy]
  · intro h
    have : missingRequired b = true := by
      rcases h with h | h | h | h <;> simp [missingRequired, h]
    simp [postUser, this, validationError]
  · intro h
    have hval : missingRequired b = false := (missingRequired_false_iff b).2 h
    unfold postUser
    simp only [hval, Bool.false_eq_true, if_false]
    split
    · simp [validationError]
    · split
      · simp [validationError]
      · split <;> simp [validationError]

theorem post_validation_witness :
    postUser (insertDefaultUsers 1)
        { firstName := Value.str "Ann", lastName := Value.str "", email :=
          Value.str "john.doe@email.com", age := Value.num 30 } 9 20 =
      (validationError, insertDefaultUsers 1) ∧
    (postUser (insertDefaultUsers 1) (annLee (Value.num 30) Value.undefined) 9 20).1 ≠
      validationError :=
  ⟨(post_validation (insertDefaultUsers 1)
      { firstName := Value.str "Ann", lastName := Value.str "", email :=
        Value.str "john.doe@email.com", age := Value.num 30 } 9 20).2.1
      (Or.inr (Or.inl (by decide))),
    (post_validation (insertDefaultUsers 1) (annLee (Value.num 30) Value.undefined) 9 20).2.2
      ⟨by decide, by decide, by decide, by decide⟩⟩

/-- C6, as stated, fails on two inputs: a valid create request with a new
email that supplies the empty string as password is answered 201 with a
record whose password is not the supplied value, and one that supplies the
integer 10 to the 21 as age is answered 201 with a record whose age is 1. -/
theorem post_input_replaced :
    (∃ r, postUser [] (annLee (Value.num 30) (Value.str "")) 9 20 =
          (⟨201, Body.user r⟩, [r]) ∧
        r.password ≠ (annLee (Value.num 30) (Value.str "")).password) ∧
    (∃ r, postUser [] (annLee (Value.num (10 ^ 21)) Value.undefined) 9 20 =
          (⟨201, Body.user r⟩, [r]) ∧
        r.age = Value.num 1 ∧ r.age ≠ (annLee (Value.num (10 ^ 21)) Value.undefined).age) :=
  ⟨⟨newUser (annLee (Value.num 30) (Value.str "")) 9 20, by decide, by decide⟩,
    ⟨newUser (annLee (Value.num (10 ^ 21)) Value.undefined) 9 20, by decide, by decide,
      by decide⟩⟩

/-- C6, amended: a create request that passes validation and whose email no
document of the collection has is answered 201, under the identifier the
driver generates, with a record that is stored at the end of the collection
and carries the input (`carriesInput`: `firstName`, `lastName` and `email` as
supplied, an integer age that is a double below 10 to the 21 as supplied,
`password` and `role` as supplied when truthy and the defaults otherwise),
an identifier held by no earlier document and `createdAt`; and
`GET /api/users/:id` with that identifier on the collection afterwards
answers 200 with the same record. Whatever identifier the driver generates,
the create is answered 201 when no document holds the identifier, and a create
answered 201 returns such a record under an identifier no earlier document
holds. -/
theorem post_returns_input (c : Collection) (b : ReqBody) (now : Nat)
    (hval : missingRequired b = false) (hemail : ∀ u ∈ c, u.email ≠ b.email) :
    (∃ r, postUser c b now (generatedId c) = (⟨201, Body.user r⟩, c ++ [r]) ∧
      carriesInput b r ∧ r._id = generatedId c ∧ (∀ u ∈ c, u._id ≠ r._id) ∧
      r.createdAt = some now ∧
      (∀ id, ObjectId id = some r._id →
        getUser (postUser c b now (generatedId c)).2 id = ⟨200, Body.user r⟩) ∧
      (r._id < 16 ^ 24 →
        getUser (postUser c b now (generatedId c)).2 (toHexString r._id) =
          ⟨200, Body.user r⟩)) ∧
    (∀ oid, (∀ u ∈ c, u._id ≠ oid) → (postUser c b now oid).1.status = 201) ∧
    (∀ oid r c1, postUser c b now oid = (⟨201, Body.user r⟩, c1) →
      c1 = c ++ [r] ∧ carriesInput b r ∧ r._id = oid ∧ (∀ u ∈ c, u._id ≠ r._id) ∧
        r.createdAt = some now ∧
        ∀ id, ObjectId id = some r._id → getUser c1 id = ⟨200, Body.user r⟩) := by
  have hget : ∀ oid, (∀ u ∈ c, u._id ≠ oid) → ∀ id, ObjectId id = some oid →
      getUser (c ++ [newUser b now oid]) id = ⟨200, Body.user (newUser b now oid)⟩ := by
    intro oid hfresh id hid
    have h3 : findOneById (c ++ [newUser b now oid]) oid = some (newUser b now oid) :=
      findOneById_append_new c (newUser b now oid) hfresh
    simp [getUser, hid, h3]
  refine ⟨?_, ?_, ?_⟩
  · have hfresh := generatedId_fresh c
    have hpost := postUser_created c b now (generatedId c) hval hemail hfresh
    refine ⟨newUser b now (generatedId c), hpost, newUser_carriesInput b now _, rfl, hfresh,
      rfl, ?_, ?_⟩
    · intro id hid
      rw [hpost]
      exact hget _ hfresh id hid
    · intro hlt
      rw [hpost]
      exact hget _ hfresh _ (ObjectId_toHexString _ hlt)
  · intro oid hfresh
    rw [postUser_created c b now oid hval hemail hfresh]
  · intro oid r c1 h
    have h201 : (postUser c b now oid).1.status = 201 := by rw [h]
    obtain ⟨_, _, hfresh⟩ := postUser_status_created c b now oid h201
    have hpost := postUser_created c b now oid hval hemail hfresh
    rw [hpost] at h
    have hr : newUser b now oid = r := by
      have := congrArg (fun x => x.1.body) h
      simpa using this
    have hc : c ++ [newUser b now oid] = c1 := congrArg (fun x => x.2) h
    subst hr
    refine ⟨hc.symm, newUser_carriesInput b now oid, rfl, hfresh, rfl, ?_⟩
    intro id hid
    rw [← hc]
    exact hget _ hfresh id hid

theorem post_returns_input_witness :
    ∃ r, postUser (insertDefaultUsers 1) (annLee (Value.num 30) (Value.str "s3cret")) 9
          (generatedId (insertDefaultUsers 1)) =
        (⟨201, Body.user r⟩, insertDefaultUsers 1 ++ [r]) ∧
      r.email = Value.str "a@x.com" ∧ r.age = Value.num 30 ∧
      r.password = Value.str "s3cret" ∧ r.role = Value.str "user" ∧ r._id = 11 ∧
      getUser (postUser (insertDefaultUsers 1)
          (annLee (Value.num 30) (Value.str "s3cret")) 9 (generatedId (insertDefaultUsers 1))).2
        "00000000000000000000000b" = ⟨200, Body.user r⟩ := by
  obtain ⟨⟨r, h1, ⟨_, _, h4, h5, h6, _, _, h9⟩, hid, _, _, h12, _⟩, _⟩ :=
    post_returns_input (insertDefaultUsers 1) (annLee (Value.num 30) (Value.str "s3cret")) 9
      (by decide) (by decide)
  have hid2 : r._id = 11 := by rw [hid]; decide
  exact ⟨r, h1, h4, h5 30 rfl (by decide) (by decide), h6 (by decide), h9 (by decide), hid2,
    h12 "00000000000000000000000b" (by rw [hid2]; decide)⟩

/-- C10: a create request answered 201 is answered with a record, stored at
the end of the collection, whose password is `defaultPassword` when the
request has none and whose role is `user` when the request has none; a
supplied non-empty password or role is stored as given; the record has
`createdAt` set to the current time and no `updatedAt`. -/
theorem post_defaults (c : Collection) (b : ReqBody) (now oid : Nat)
    (h : (postUser c b now oid).1.status = 201) :
    ∃ r, postUser c b now oid = (⟨201, Body.user r⟩, c ++ [r]) ∧
      (b.password = Value.undefined → r.password = Value.str "defaultPassword") ∧
      (b.role = Value.undefined → r.role = Value.str "user") ∧
      (∀ s, s ≠ "" → b.password = Value.str s → r.password = Value.str s) ∧
      (∀ s, s ≠ "" → b.role = Value.str s → r.role = Value.str s) ∧
      r.createdAt = some now ∧ r.updatedAt = none := by
  obtain ⟨hval, hemail, hfresh⟩ := postUser_status_created c b now oid h
  refine ⟨newUser b now oid, postUser_created c b now oid hval hemail hfresh,
    ?_, ?_, ?_, ?_, rfl, rfl⟩
  · intro hp
    simp [newUser, Value.or, hp, Value.truthy]
  · intro hp
    simp [newUser, Value.or, hp, Value.truthy]
  · intro s hs hp
    simp [newUser, Value.or, hp, Value.truthy, hs]
  · intro s hs hp
    simp [newUser, Value.or, hp, Value.truthy, hs]

theorem post_defaults_witness :
    ∃ r, postUser (insertDefaultUsers 1) (annLee (Value.num 30) Value.undefined) 9 20 =
        (⟨201, Body.user r⟩, insertDefaultUsers 1 ++ [r]) ∧
      r.password = Value.str "defaultPassword" ∧ r.role = Value.str "user" ∧
      r.createdAt = some 9 ∧ r.updatedAt = none := by
  obtain ⟨r, h1, h2, h3, _, _, h6, h7⟩ :=
    post_defaults (insertDefaultUsers 1) (annLee (Value.num 30) Value.undefined) 9 20
      (by decide)
  exact ⟨r, h1, h2 rfl, h3 rfl, h6, h7⟩

/-! ## Email uniqueness over sequences of requests -/

/-- The create handler keeps emails unique. -/
theorem post_keeps_emails_unique (c : Collection) (b : ReqBody) (now oid : Nat)
    (h : emailsUnique c) : emailsUnique (postUser c b now oid).2 := by
  by_cases h201 : (postUser c b now oid).1.status = 201
  · obtain ⟨hval, hemail, hfresh⟩ := postUser_status_created c b now oid h201
    rw [postUser_created c b now oid hval hemail hfresh]
    simp only [emailsUnique] at h ⊢
    rw [List.pairwise_append]
    refine ⟨h, List.pairwise_singleton _ _, ?_⟩
    intro u hu v hv
    rw [List.mem_singleton] at hv
    subst hv
    simpa [newUser] using hemail u hu
  · have : (postUser c b now oid).2 = c := by
      by_cases hval : missingRequired b = true
      · simp [postUser, hval]
      · cases h1 : findOneByEmail c b.email with
        | some u => simp [postUser, hval, h1]
        | none =>
          cases h2 : insertOne c (newUser b now oid) with
          | none => simp [postUser, hval, h1, h2]
          | some c1 =>
            exfalso
            apply h201
            cases h3 : findOneById c1 oid <;> simp [postUser, hval, h1, h2, h3]
    rw [this]
    exact h

/-- The delete handler keeps emails unique. -/
theorem delete_keeps_emails_unique (c : Collection) (id : String)
    (h : emailsUnique c) : emailsUnique (deleteUser c id).2 := by
  have hsub : List.Sublist (deleteUser c id).2 c := by
    unfold deleteUser
    split
    · exact List.Sublist.refl _
    · rename_i oid _
      unfold deleteOne
      cases findOneById c oid with
      | none => exact List.Sublist.refl _
      | some u => exact List.eraseP_sublist _
  exact List.Pairwise.sublist hsub h

/-- C3 fails on the update path: from the empty collection, creating Ann with
`a@x.com`, creating Bob with `b@x.com` and then updating Bob's email to
`a@x.com` leaves two documents with different identifiers and the same
email. -/
theorem put_breaks_email_uniqueness :
    ¬ emailsUnique
        (run []
          [ Request.create (annLee (Value.num 30) Value.undefined) 1 1,
            Request.create
              { firstName := Value.str "Bob", lastName := Value.str "Ray",
                email := Value.str "b@x.com", age := Value.num 40 } 2 2,
            Request.update "000000000000000000000002" { email := Value.str "a@x.com" } 3 ]) ∧
      (run []
          [ Request.create (annLee (Value.num 30) Value.undefined) 1 1,
            Request.create
              { firstName := Value.str "Bob", lastName := Value.str "Ray",
                email := Value.str "b@x.com", age := Value.num 40 } 2 2,
            Request.update "000000000000000000000002" { email := Value.str "a@x.com" } 3 ]).map
          (fun u => (u._id, u.email)) =
        [(1, Value.str "a@x.com"), (2, Value.str "a@x.com")] := by
  decide

/-! ## List: sorting -/

theorem bsonLe_total (a b : BsonKey) : BsonKey.le a b = true ∨ BsonKey.le b a = true := by
  cases a <;> cases b <;> simp [BsonKey.le, BsonKey.rank]
  all_goals first
    | omega
    | exact le_total _ _
    | (rename_i x y; cases x <;> cases y <;> simp)

theorem bsonLe_trans (a b c : BsonKey) (hab : BsonKey.le a b = true)
    (hbc : BsonKey.le b c = true) : BsonKey.le a c = true := by
  cases a <;> cases b <;> cases c <;> simp_all [BsonKey.le, BsonKey.rank]
  all_goals first
    | omega
    | exact le_trans hab hbc
    | (rename_i x y z; cases x <;> cases y <;> cases z <;> simp_all)

theorem sortRel_total (field : String) (dir : Int) (a b : User) :
    sortRel field dir a b ∨ sortRel field dir b a := by
  unfold sortRel
  split
  · exact bsonLe_total _ _
  · exact bsonLe_total _ _

theorem sortRel_trans (field : String) (dir : Int) (a b c : User)
    (hab : sortRel field dir a b) (hbc : sortRel field dir b c) : sortRel field dir a c := by
  unfold sortRel at *
  split
  · rename_i hd
    simp only [hd, if_true] at hab hbc
    exact bsonLe_trans _ _ _ hbc hab
  · rename_i hd
    simp only [hd, if_false] at hab hbc
    exact bsonLe_trans _ _ _ hab hbc

/-- The sorted cursor is a rearrangement of the documents, each related by the
sort order to every later one. -/
theorem sortDocs_sorted (field : String) (dir : Int) (l : List User) :
    (l.insertionSort (sortRel field dir)).Perm l ∧
      (l.insertionSort (sortRel field dir)).Pairwise (sortRel field dir) := by
  haveI : IsTotal User (sortRel field dir) := ⟨sortRel_total field dir⟩
  haveI : IsTrans User (sortRel field dir) := ⟨sortRel_trans field dir⟩
  exact ⟨List.perm_insertionSort _ _, List.sorted_insertionSort _ _⟩

theorem key_age (u : User) : u.key "age" = u.age.toKey := by
  simp [User.key]

/-- The list handler inside the modelled fragment: the documents `find` gives
for the query, in the order of the sort specification. -/
theorem getUsers_eq (c : Collection) (sortBy order search : Option String) (query : Query)
    (hq : buildQuery search = some query)
    (hs : ∀ f d, buildSortOptions sortBy order = some (f, d) → plainFieldName f = true) :
    getUsers c { sortBy := sortBy, order := order, search := search } =
      some ⟨200, Body.users (sortDocs (buildSortOptions sortBy order) (find c query))⟩ := by
  unfold getUsers
  simp only [hq]
  cases ho : buildSortOptions sortBy order with
  | none => simp
  | some fd =>
    obtain ⟨f, d⟩ := fd
    simp [hs f d ho]

theorem buildSortOptions_some (f : String) (order : Option String) (hf : f ≠ "") :
    buildSortOptions (some f) order = some (f, if order = some "desc" then -1 else 1) := by
  simp [buildSortOptions, paramTruthy, hf]

/-- C8: inside the modelled fragment of the search, the list handler with sort
field `age` and order `desc` answers with a rearrangement of the documents
matching the filter in which every document's age is greater than or equal,
in the store's comparison order and so numerically for integer ages, to that
of every later document; with a sort field and an order other than `desc`
(or none) the direction is 1 and the answer is ordered ascending by the
field; without a sort field the sort specification is empty and the answer
is the matching documents in natural order. -/
theorem list_sort_order (c : Collection) (search order : Option String) (query : Query)
    (hq : buildQuery search = some query) :
    (∃ l, getUsers c { sortBy := some "age", order := some "desc", search := search } =
          some ⟨200, Body.users l⟩ ∧
        l.Perm (find c query) ∧
        l.Pairwise (fun a b => BsonKey.le b.age.toKey a.age.toKey = true) ∧
        l.Pairwise (fun a b => ∀ x y, a.age = Value.num x → b.age = Value.num y → y ≤ x)) ∧
    (∀ f, f ≠ "" → plainFieldName f = true → order ≠ some "desc" →
      buildSortOptions (some f) order = some (f, 1) ∧
      ∃ l, getUsers c { sortBy := some f, order := order, search := search } =
          some ⟨200, Body.users l⟩ ∧
        l.Perm (find c query) ∧
        l.Pairwise (fun a b => BsonKey.le (a.key f) (b.key f) = true)) ∧
    (∀ sb, paramTruthy sb = false →
      buildSortOptions sb order = none ∧
      getUsers c { sortBy := sb, order := order, search := search } =
        some ⟨200, Body.users (find c query)⟩) := by
  refine ⟨?_, ?_, ?_⟩
  · have ho : buildSortOptions (some "age") (some "desc") = some ("age", -1) := by
      rw [buildSortOptions_some "age" _ (by decide)]
      simp
    have hg := getUsers_eq c (some "age") (some "desc") search query hq (by
      intro f d hfd
      rw [ho] at hfd
      cases hfd
      decide)
    rw [ho] at hg
    have hsorted : ((find c query).insertionSort (sortRel "age" (-1))).Pairwise
        (fun a b => BsonKey.le b.age.toKey a.age.toKey = true) := by
      have := (sortDocs_sorted "age" (-1) (find c query)).2
      refine List.Pairwise.imp ?_ this
      intro a b hab
      simpa [sortRel, key_age] using hab
    refine ⟨_, hg, (sortDocs_sorted "age" (-1) (find c query)).1, hsorted, ?_⟩
    refine List.Pairwise.imp ?_ hsorted
    intro a b hab x y hx hy
    simpa [hx, hy, Value.toKey, BsonKey.le] using hab
  · intro f hf hplain hord
    have ho : buildSortOptions (some f) order = some (f, 1) := by
      rw [buildSortOptions_some f _ hf]
      simp [hord]
    have hg := getUsers_eq c (some f) order search query hq (by
      intro g d hgd
      rw [ho] at hgd
      cases hgd
      exact hplain)
    rw [ho] at hg
    refine ⟨ho, _, hg, (sortDocs_sorted f 1 (find c query)).1, ?_⟩
    have := (sortDocs_sorted f 1 (find c query)).2
    refine List.Pairwise.imp ?_ this
    intro a b hab
    simpa [sortRel] using hab
  · intro sb hsb
    have ho : buildSortOptions sb order = none := by
      cases sb with
      | none => rfl
      | some f => simp [buildSortOptions, hsb]
    have hg := getUsers_eq c sb order search query hq (by
      intro f d hfd
      rw [ho] at hfd
      cases hfd)
    rw [ho] at hg
    exact ⟨ho, hg⟩

theorem list_sort_order_witness :
    (∃ l, getUsers (insertDefaultUsers 1) { sortBy := some "age", order := some "desc" } =
          some ⟨200, Body.users l⟩ ∧
        l.Perm (insertDefaultUsers 1) ∧
        l.Pairwise (fun a b => BsonKey.le b.age.toKey a.age.toKey = true) ∧
        l.Pairwise (fun a b => ∀ x y, a.age = Value.num x → b.age = Value.num y → y ≤ x)) ∧
    getUsers (insertDefaultUsers 1) { sortBy := some "", order := some "desc" } =
      some ⟨200, Body.users (insertDefaultUsers 1)⟩ ∧
    (getUsers (insertDefaultUsers 1) { sortBy := some "age", order := some "desc" }).map
        (fun r => match r.body with
          | Body.users l => l.map (fun u => u.age)
          | _ => []) =
      some [Value.num 50, Value.num 45, Value.num 41, Value.num 38, Value.num 35,
        Value.num 32, Value.num 29, Value.num 28, Value.num 27, Value.num 25] :=
  ⟨(list_sort_order (insertDefaultUsers 1) none none none rfl).1,
    ((list_sort_order (insertDefaultUsers 1) none (some "desc") none rfl).2.2 (some "")
      (by decide)).2,
    by decide⟩

/-! ## List: searching -/

theorem compileRegex_plain (p : List Char)
    (h : ∀ ch ∈ p, ch.toNat < 128 ∧ ch.toNat ∉ regexSpecial) :
    compileRegex p = some (p.map Atom.lit) := by
  induction p with
  | nil => rfl
  | cons a r ih =>
    obtain ⟨hascii, ha⟩ := h a (List.mem_cons_self _ _)
    have hdot : a.toNat ≠ 46 := by
      intro h46
      apply ha
      rw [h46]
      decide
    have h128 : ¬ 128 ≤ a.toNat := by omega
    have hr := ih (fun ch hch => h ch (List.mem_cons_of_mem _ hch))
    simp [compileRegex, hdot, ha, hr, h128]

theorem matchHere_lit (p text : List Char) :
    matchHere (p.map Atom.lit) text = true ↔ p.map caseFold <+: text.map caseFold := by
  induction p generalizing text with
  | nil => simp [matchHere]
  | cons a r ih =>
    cases text with
    | nil => simp [matchHere]
    | cons ch cs =>
      simp [matchHere, Atom.accepts, ih cs, List.cons_prefix_cons]

theorem matchAnywhere_lit (p text : List Char) :
    matchAnywhere (p.map Atom.lit) text = true ↔ p.map caseFold <:+: text.map caseFold := by
  induction text with
  | nil =>
    have := matchHere_lit p []
    simp only [List.map_nil, List.prefix_nil] at this
    simp [matchAnywhere, this]
  | cons ch cs ih =>
    have h1 := matchHere_lit p (ch :: cs)
    simp only [List.map_cons] at h1
    simp only [matchAnywhere, Bool.or_eq_true, List.map_cons, List.infix_cons_iff, h1, ih]

theorem containsIgnoreCase_ascii (s : String)
    (hascii : ∀ ch ∈ s.toList, ch.toNat < 128) (v : Value) :
    containsIgnoreCase s v = some (regexField (s.toList.map Atom.lit) v) := by
  have hall : s.toList.all (fun ch => decide (ch.toNat < 128)) = true := by
    rw [List.all_eq_true]
    intro ch hch
    exact decide_eq_true (hascii ch hch)
  unfold containsIgnoreCase
  rw [if_pos hall]
  cases v with
  | str t =>
    simp only [regexField, Option.some.injEq]
    rw [Bool.eq_iff_iff, matchAnywhere_lit]
    exact decide_eq_true_iff
  | _ => rfl

theorem nameContains_ascii (s : String) (hascii : ∀ ch ∈ s.toList, ch.toNat < 128)
    (u : User) :
    nameContains s u =
      (regexField (s.toList.map Atom.lit) u.firstName ||
        regexField (s.toList.map Atom.lit) u.lastName) := by
  unfold nameContains
  rw [containsIgnoreCase_ascii s hascii, containsIgnoreCase_ascii s hascii, Bool.eq_iff_iff]
  simp

/-- C7, as stated, fails: the search string `.` is read as a regular
expression, so on the default users the list handler answers with all ten
documents, of which none has a first or last name containing a dot. -/
theorem search_dot_matches_all :
    getUsers (insertDefaultUsers 1) { search := some "." } =
        some ⟨200, Body.users (insertDefaultUsers 1)⟩ ∧
      (insertDefaultUsers 1).filter (nameContains ".") = [] := by
  decide

/-- C7, amended: for a non-empty search string of ASCII characters free of the
special characters of regular expressions, the list handler answers 200 with
exactly the documents, in natural order, whose `firstName` or `lastName` is a
text containing the string, letters compared without regard to case; the
answer is the empty sequence when no document matches; `jan` is contained in
`Jane` and `Janet` and not in `John`. -/
theorem search_plain_substring (c : Collection) (s : String) (hs : s ≠ "")
    (hplain : ∀ ch ∈ s.toList, ch.toNat < 128 ∧ ch.toNat ∉ regexSpecial) :
    getUsers c { search := some s } = some ⟨200, Body.users (c.filter (nameContains s))⟩ ∧
      ((∀ u ∈ c, nameContains s u = false) →
        getUsers c { search := some s } = some ⟨200, Body.users []⟩) ∧
      containsIgnoreCase "jan" (Value.str "Jane") = some true ∧
      containsIgnoreCase "jan" (Value.str "Janet") = some true ∧
      containsIgnoreCase "jan" (Value.str "John") = some false := by
  have hq : buildQuery (some s) = some (some (s.toList.map Atom.lit)) := by
    have hc := compileRegex_plain s.toList hplain
    simp only [buildQuery, paramTruthy, hs, ne_eq, not_false_eq_true, decide_True, if_true, hc,
      Option.map]
  have hg := getUsers_eq c none none (some s) _ hq (by
    intro f d hfd
    simp [buildSortOptions] at hfd)
  have hfind : find c (some (s.toList.map Atom.lit)) = c.filter (nameContains s) := by
    simp only [find]
    congr 1
    funext u
    rw [nameContains_ascii s (fun ch hch => (hplain ch hch).1)]
  have hmain : getUsers c { search := some s } =
      some ⟨200, Body.users (c.filter (nameContains s))⟩ := by
    rw [hg, hfind]
    rfl
  refine ⟨hmain, ?_, by decide, by decide, by decide⟩
  intro hnone
  rw [hmain]
  have : c.filter (nameContains s) = [] := by
    rw [List.filter_eq_nil_iff]
    intro u hu
    simp [hnone u hu]
  rw [this]

theorem search_plain_substring_witness :
    getUsers (insertDefaultUsers 1) { search := some "JOHN" } =
        some ⟨200, Body.users
          [defaultUser "John" "Doe" "john.doe@email.com" 28 "user" 1,
            defaultUser "Alice" "Johnson" "alice.j@email.com" 25 "user" 3]⟩ := by
  have h := (search_plain_substring (insertDefaultUsers 1) "JOHN" (by decide) (by decide)).1
  rw [h]
  decide

end UserBase
